import Mathlib

/-!
Verification of the Bitcoin peer-monitor scripts
(`peerinfo2.py`, `peers.py`, `peers_monitor.py`, `peers_rich.py`, `peers_rich2.py`).

The Python sources are embedded shallowly:
  * pure functions become Lean functions;
  * Python exceptions (`ValueError` from `int(s, 16)`, `KeyError` from
    mandatory dict access) become `Except String`;
  * Python arbitrary-precision integers become `Int`/`Nat`;
  * Python float values appearing in the scripts are exact decimal values
    (byte counts divided by 1048576, timestamps divided by 86400, JSON
    decimal literals), so they are modelled as exact fractions given by an
    integer numerator and positive denominator, and `str.format` fixed-point
    rendering is modelled by exact rounding half-to-even on that fraction;
  * the curses refresh loop of `peers.py` becomes a function over the finite
    list of per-cycle external events (fetch outcome, polled keys).
-/

deriving instance DecidableEq for Except

/-! ## Python primitives used by the scripts -/

/-- Two's-complement bitwise AND on arbitrary-precision integers, matching
Python's `&` operator (`Int.negSucc n` has bit pattern `~n`). -/
def landI : Int → Int → Int
  | .ofNat m, .ofNat n => .ofNat (m &&& n)
  | .ofNat m, .negSucc n => .ofNat (Nat.ldiff m n)
  | .negSucc m, .ofNat n => .ofNat (Nat.ldiff n m)
  | .negSucc m, .negSucc n => .negSucc (m ||| n)

/-- Value of a digit character in the given base (10 or 16), as accepted by
Python's `int(s, base)` and `float(s)`. -/
def digitVal? (base : Nat) (c : Char) : Option Nat :=
  if '0' ≤ c ∧ c ≤ '9' then
    let v := c.toNat - '0'.toNat
    if v < base then some v else none
  else if base = 16 ∧ 'a' ≤ c ∧ c ≤ 'f' then some (c.toNat - 'a'.toNat + 10)
  else if base = 16 ∧ 'A' ≤ c ∧ c ≤ 'F' then some (c.toNat - 'A'.toNat + 10)
  else none

/-- Consume the rest of a digit group after its first digit: further digits,
optionally separated by single underscores (Python's numeric-literal
underscore rule).  Returns the accumulated value, the number of digits
consumed, and the unconsumed remainder. -/
def groupRest (base : Nat) : Nat → Nat → List Char → Nat × Nat × List Char
  | acc, cnt, [] => (acc, cnt, [])
  | acc, cnt, c :: cs =>
    match digitVal? base c with
    | some d => groupRest base (acc * base + d) (cnt + 1) cs
    | none =>
      if c = '_' then
        match cs with
        | c2 :: cs2 =>
          match digitVal? base c2 with
          | some d => groupRest base (acc * base + d) (cnt + 1) cs2
          | none => (acc, cnt, c :: cs)
        | [] => (acc, cnt, c :: cs)
      else (acc, cnt, c :: cs)

/-- Parse a nonempty digit group (first character must be a digit). -/
def parseDigitGroup (base : Nat) : List Char → Option (Nat × Nat × List Char)
  | [] => none
  | c :: cs =>
    match digitVal? base c with
    | some d => some (groupRest base d 1 cs)
    | none => none

/-- Strip leading and trailing whitespace, as Python's `int`/`float` do. -/
def stripEnds (l : List Char) : List Char :=
  ((l.dropWhile Char.isWhitespace).reverse.dropWhile Char.isWhitespace).reverse

/-- Split an optional leading sign. -/
def parseSign : List Char → Int × List Char
  | '+' :: cs => (1, cs)
  | '-' :: cs => (-1, cs)
  | cs => (1, cs)

/-- Model of Python's `int(s, 16)`: optional surrounding whitespace, optional
sign, optional `0x`/`0X` marker (which may be followed by one underscore),
then a nonempty group of hex digits with optional single underscores
between digits.  `none` models the `ValueError` Python raises otherwise. -/
def parseIntHex (s : String) : Option Int :=
  let l := stripEnds s.toList
  let (sign, l1) := parseSign l
  let l2 :=
    match l1 with
    | '0' :: 'x' :: rest => match rest with
                            | '_' :: r2 => r2
                            | _ => rest
    | '0' :: 'X' :: rest => match rest with
                            | '_' :: r2 => r2
                            | _ => rest
    | rest => rest
  match parseDigitGroup 16 l2 with
  | some (v, _, []) => some (sign * v)
  | _ => none

/-- Model of Python's `float(s)` restricted to finite decimal literals:
optional whitespace and sign, a mantissa (`digits`, `digits.`, `.digits` or
`digits.digits`) and an optional decimal exponent.  The value is returned as
an exact fraction `(num, den)` with `den` a positive power of ten.  The
literals `inf` and `nan` are outside this model and are treated as
unparseable. -/
def parseFloat? (s : String) : Option (Int × Nat) :=
  let l := stripEnds s.toList
  let (sign, l1) := parseSign l
  -- mantissa: integer part and fractional part
  let mant : Option (Nat × Nat × List Char) :=
    match parseDigitGroup 10 l1 with
    | some (ip, _, rest) =>
      match rest with
      | '.' :: rest2 =>
        match parseDigitGroup 10 rest2 with
        | some (fp, fcnt, rest3) => some (ip * 10 ^ fcnt + fp, fcnt, rest3)
        | none => some (ip, 0, rest2)
      | _ => some (ip, 0, rest)
    | none =>
      match l1 with
      | '.' :: rest2 =>
        match parseDigitGroup 10 rest2 with
        | some (fp, fcnt, rest3) => some (fp, fcnt, rest3)
        | none => none
      | _ => none
  match mant with
  | none => none
  | some (m, fcnt, rest) =>
    match rest with
    | [] => some (sign * m, 10 ^ fcnt)
    | e :: rest2 =>
      if e = 'e' ∨ e = 'E' then
        let (esign, rest3) := parseSign rest2
        match parseDigitGroup 10 rest3 with
        | some (ev, _, []) =>
          if esign = 1 then some (sign * m * 10 ^ ev, 10 ^ fcnt)
          else some (sign * m, 10 ^ fcnt * 10 ^ ev)
        | _ => none
      else none

/-- Round the fraction `num / den` (`den > 0`) to the nearest integer, ties
to even: the rounding applied by Python's fixed-point string formatting. -/
def roundHalfEvenDiv (num den : Int) : Int :=
  let q := num.fdiv den
  let r := num.fmod den
  if 2 * r < den then q
  else if den < 2 * r then q + 1
  else if q.fmod 2 = 0 then q else q + 1

/-- Left-pad a string with zeros to the given width. -/
def padZeros (s : String) (w : Nat) : String :=
  (List.replicate (w - s.length) '0').asString ++ s

/-- Fixed-point rendering of a nonnegative fraction to `d` decimal places. -/
def formatFixedDivNN (num den : Int) (d : Nat) : String :=
  let scaled := (roundHalfEvenDiv (num * ((10 : Nat) ^ d : Nat)) den).toNat
  let ip := scaled / 10 ^ d
  let fp := scaled % 10 ^ d
  if d = 0 then toString ip
  else toString ip ++ "." ++ padZeros (toString fp) d

/-- Model of Python's `f"{num/den:.df}"` fixed-point formatting of the exact
fraction `num / den` (`den > 0`): `d` decimal digits, rounding half to
even, sign-aware. -/
def formatFixedDiv (num den : Int) (d : Nat) : String :=
  if num < 0 then "-" ++ formatFixedDivNN (-num) den d
  else formatFixedDivNN num den d

/-- Model of Python's `f"{n:02}"`: pad the decimal rendering to width two
with leading zeros. -/
def pad2 (n : Int) : String :=
  let s := toString n
  if s.length ≥ 2 then s else "0" ++ s

/-- Substring test on character lists: does `needle` occur contiguously in
the second argument? -/
def containsSeq (needle : List Char) : List Char → Bool
  | [] => needle.isEmpty
  | c :: cs => needle.isPrefixOf (c :: cs) || containsSeq needle cs

/-- Model of Python's `needle in hay` substring containment on strings. -/
def pyIn (needle hay : String) : Bool :=
  containsSeq needle.toList hay.toList

/-! ## Data model

`RawPeer` is the JSON record returned by `bitcoin-cli getpeerinfo`.  Fields
the scripts only read through `dict.get` with a default are `Option`s;
`none` models the key being absent.  Fields the scripts index directly are
also `Option`s where some variant uses a default for them; a direct
`peer['k']` access on an absent key is modelled as a raised `KeyError`. -/

/-- A JSON value in the `pingtime` position: either a number (an exact
decimal fraction `num / den`) or a string. -/
inductive PingVal
  | num (num : Int) (den : Nat)
  | str (s : String)
deriving DecidableEq

structure RawPeer where
  id : Int
  addr : String
  conntime : Option Int
  services : Option String
  subver : Option String
  version : Option Int
  bytessent : Int
  bytesrecv : Int
  pingtime : Option PingVal
  inbound : Bool
  synced_headers : Int
  synced_blocks : Int
  banscore : Option Int
  relaytxes : Bool
deriving DecidableEq

/-- Python `peer['field']` on a possibly absent key: raises `KeyError`. -/
def req {α : Type} (field : String) : Option α → Except String α
  | some a => .ok a
  | none => .error ("KeyError: " ++ field)

/-- A rendered display row: its cell strings plus the anomalous-highlight
flag (`style="yellow"` in the rich variants). -/
structure RowM where
  cells : List String
  anomalous : Bool
deriving DecidableEq

/-- `format_pingtime` — identical in `peers.py` (94-103), `peers_monitor.py`
(72-79), `peers_rich.py` (52-59) and `peers_rich2.py` (52-59): the literal
string `"N/A"` is passed through, otherwise `float(pingtime)` is rendered
with three decimals, and a `ValueError` from the conversion yields
`"N/A"`. -/
def format_pingtime (pingtime : PingVal) : String :=
  match pingtime with
  | .str s =>
    if s = "N/A" then s
    else
      match parseFloat? s with
      | some (n, d) => formatFixedDiv n (d : Int) 3
      | none => "N/A"
  | .num n d => formatFixedDiv n (d : Int) 3

namespace Peerinfo2

/-- `peerinfo2.py` lines 6-13: the enumerated (bit, tag) table, in source
order. -/
def SERVICES : List (Nat × String) :=
  [(0x01, "NODE_NETWORK"),
   (0x02, "NODE_GETUTXOS"),
   (0x04, "NODE_BLOOM"),
   (0x08, "NODE_WITNESS"),
   (0x10, "NODE_XTHIN"),
   (0x40000000, "NODE_NETWORK_LIMITED")]

/-- `peerinfo2.py` lines 16-21 (`translate_services`): walk the enumerated
table and append the tag of every pair whose bit is set. -/
def translate_services (services_bitmask : Nat) : List String :=
  SERVICES.foldl
    (fun supported_services p =>
      if services_bitmask &&& p.1 != 0 then supported_services ++ [p.2]
      else supported_services)
    []

end Peerinfo2

namespace Peers

/-- `peers.py` lines 8-11: service flag constants. -/
def NODE_NETWORK : Int := ((1 <<< 0 : Nat) : Int)

def NODE_WITNESS : Int := ((1 <<< 3 : Nat) : Int)

def NODE_COMPACT_FILTERS : Int := ((1 <<< 6 : Nat) : Int)

def NODE_NETWORK_LIMITED : Int := ((1 <<< 10 : Nat) : Int)

/-- `peers.py` lines 28-39 (`decode_services`): `int(services_hex, 16)` —
which raises `ValueError` on a non-hex string — then one append per set
flag, joined with `", "`. -/
def decode_services (services_hex : String) : Except String String :=
  match parseIntHex services_hex with
  | none => .error ("invalid literal for int() with base 16: " ++ services_hex)
  | some services_int =>
    let services_list : List String :=
      (if landI services_int NODE_NETWORK != 0 then ["N_N"] else []) ++
      (if landI services_int NODE_WITNESS != 0 then ["N_W"] else []) ++
      (if landI services_int NODE_COMPACT_FILTERS != 0 then ["N_C_F"] else []) ++
      (if landI services_int NODE_NETWORK_LIMITED != 0 then ["N_N_L"] else [])
    .ok (String.intercalate ", " services_list)

/-- `peers.py` lines 42-52 (`connection_duration`): `now` is the value of
`datetime.now()` at the call; the elapsed seconds are split by floor
`divmod` into hours, minutes, seconds and each part is rendered with
`f"{int(x):02}"`.  There is no days branch in this variant. -/
def connection_duration (connected_since now : Int) : String :=
  let total := now - connected_since
  let hours := total.fdiv 3600
  let remainder := total.fmod 3600
  let minutes := remainder.fdiv 60
  let seconds := remainder.fmod 60
  pad2 hours ++ ":" ++ pad2 minutes ++ ":" ++ pad2 seconds

/-- `peers.py` line 62 (inside `ban_peer`): `peer_ip_port.split(":")[0]`,
the characters before the first `':'` (the whole string when there is
none). -/
def ban_target (peer_ip_port : String) : String :=
  ((peer_ip_port.toList.takeWhile (fun c => c ≠ ':')).asString)

/-- The per-peer policy decision taken by `analyze_peers`. -/
inductive Action
  | none
  | warn (addr : String)
  | requestBan (ip : String)
deriving DecidableEq

/-- `peers.py` lines 78-91 (`analyze_peers`, body of the per-peer loop):
read `addr`, `banscore` (default 0) and the decoded services string, then
ban when `banscore > 100` — the ban target is `addr.split(":")[0]` from
`ban_peer` — else warn when the substring `'N_N'` does not occur in the
services string, else do nothing.  `decode_services` runs before the
branches and can raise. -/
def analyze_peer (peer : RawPeer) : Except String Action :=
  let banscore := peer.banscore.getD 0
  match decode_services (peer.services.getD "0") with
  | .error e => .error e
  | .ok services =>
    if banscore > 100 then
      .ok (Action.requestBan (ban_target peer.addr))
    else if !(pyIn "N_N" services) then
      .ok (Action.warn peer.addr)
    else
      .ok Action.none

/-- `peers.py` lines 106-122 (`format_peer_data`): one display row.  Cells
holding non-string values are rendered to strings as `tabulate` would.
`decode_services` (and, in principle, a direct access to an absent
mandatory key) can raise; the row is then not produced. -/
def format_peer_data (now : Int) (peer : RawPeer) : Except String (List String) :=
  match decode_services (peer.services.getD "0") with
  | .error e => .error e
  | .ok services =>
  match req "subver" peer.subver with
  | .error e => .error e
  | .ok subver =>
  match req "version" peer.version with
  | .error e => .error e
  | .ok version =>
  .ok [toString peer.id,
        peer.addr,
        connection_duration (peer.conntime.getD 0) now,
        services,
        subver,
        toString version,
        formatFixedDiv peer.bytessent 1048576 2 ++ " MB",
        formatFixedDiv peer.bytesrecv 1048576 2 ++ " MB",
        format_pingtime (peer.pingtime.getD (PingVal.str "N/A")),
        (if peer.inbound then "Inbound" else "Outbound"),
        toString peer.synced_headers,
        toString peer.synced_blocks,
        (match peer.banscore with
         | some b => toString b
         | Option.none => "N/A"),
        (if peer.relaytxes then "Yes" else "No")]

/-- `peers.py` lines 124-126 (`format_peer_info`): rows for all peers,
built left to right; the first raised exception aborts the whole table. -/
def format_peer_info (now : Int) : List RawPeer → Except String (List (List String))
  | [] => .ok []
  | p :: rest =>
    match format_peer_data now p with
    | .error e => .error e
    | .ok row =>
      match format_peer_info now rest with
      | .error e => .error e
      | .ok rows => .ok (row :: rows)

/-! ### The refresh loop of `display_real_time` (`peers.py` lines 149-193)

One iteration of the `while True` loop: clear the screen, run the `try`
block (fetch + format + tabulate + draw; any exception is caught and drawn
as an `Error:` banner), refresh, then poll `getch()` up to
`refresh_rate * 10 = 50` times, returning on `ord('q')` and sleeping
`napms(100)` — 100 ms — after every other poll.

The loop is driven by external events, modelled per cycle: the outcome of
`get_peer_info()` (a peer list, or the exception text that reached the
`except` clause) and the sequence of `getch()` results during the wait.
The fetch time `now` is the cycle's clock reading. -/

/-- Outcome of the fetch step of one cycle. -/
inductive FetchOutcome
  | ok (peers : List RawPeer)
  | fail (msg : String)
deriving DecidableEq

/-- External events of one loop cycle. -/
structure CycleInput where
  fetch : FetchOutcome
  keys : List Int
  now : Int
deriving DecidableEq

/-- What one cycle leaves on the screen: the peer table, or the error
banner drawn by the `except` clause. -/
inductive Screen
  | table (rows : List (List String))
  | banner (msg : String)
deriving DecidableEq

/-- `ord('q')`. -/
def qKey : Int := 113

/-- The `try`/`except` body of one cycle: a fetch failure or a formatting
exception is caught and becomes the error banner; otherwise the table is
drawn. -/
def renderCycle (c : CycleInput) : Screen :=
  match c.fetch with
  | .fail e => .banner e
  | .ok peers =>
    match format_peer_info c.now peers with
    | .error e => .banner e
    | .ok rows => .table rows

/-- The wait loop over the polled key codes: return `(ms, true)` — quit
after `ms` milliseconds of sleeping — when `ord('q')` is read, else
`(ms, false)` after sleeping through all polls.  Each non-quit poll is
followed by `napms(100)`. -/
def waitScan : List Int → Nat × Nat
  | [] => (0, 0)
  | k :: ks =>
    if k = qKey then (0, 1)
    else
      let r := waitScan ks
      (100 + r.1, r.2)

/-- The 50 `getch()` results of one cycle's wait window; `-1` (curses "no
key") when the input stream has fewer entries. -/
def pollKeys (keys : List Int) : List Int :=
  (keys ++ List.replicate 50 (-1)).take 50

/-- One cycle's wait: 50 polls at 100 ms.  Returns the milliseconds slept
before returning and whether the quit key was seen. -/
def waitCycle (keys : List Int) : Nat × Bool :=
  let r := waitScan (pollKeys keys)
  (r.1, r.2 = 1)

/-- `display_real_time`'s `while True` loop over the per-cycle external
events: every cycle renders its screen (table or banner), then waits; the
loop exits only when a wait sees `ord('q')`.  Returns the rendered screens
in order and whether the loop returned (`true`) or is still running when
the recorded events end (`false`). -/
def runLoop : List CycleInput → List Screen × Bool
  | [] => ([], false)
  | c :: rest =>
    let scr := renderCycle c
    if (waitCycle c.keys).2 then ([scr], true)
    else
      let r := runLoop rest
      (scr :: r.1, r.2)

end Peers

namespace PeersMonitor

/-- `peers_monitor.py` lines 29-32: service flag constants (`1 <<< 10` is
`0x400 = 1024`). -/
def NODE_NETWORK : Int := ((1 <<< 0 : Nat) : Int)

def NODE_WITNESS : Int := ((1 <<< 3 : Nat) : Int)

def NODE_COMPACT_FILTERS : Int := ((1 <<< 6 : Nat) : Int)

def NODE_NETWORK_LIMITED : Int := ((1 <<< 10 : Nat) : Int)

/-- `peers_monitor.py` lines 45-57 (`decode_services`): same structure as
the `peers.py` variant but with the short tags `"N"`, `"W"`, `"C_F"`,
`"N_L"`. -/
def decode_services (services_hex : String) : Except String String :=
  match parseIntHex services_hex with
  | none => .error ("invalid literal for int() with base 16: " ++ services_hex)
  | some services_int =>
    let services_list : List String :=
      (if landI services_int NODE_NETWORK != 0 then ["N"] else []) ++
      (if landI services_int NODE_WITNESS != 0 then ["W"] else []) ++
      (if landI services_int NODE_COMPACT_FILTERS != 0 then ["C_F"] else []) ++
      (if landI services_int NODE_NETWORK_LIMITED != 0 then ["N_L"] else [])
    .ok (String.intercalate ", " services_list)

/-- `peers_monitor.py` lines 59-70 (`connection_duration`): floor `divmod`
split of the elapsed seconds, plus `days = total_seconds / 86400`; when
`days <= 1` — equivalently `total ≤ 86400`, since `86400 > 0` — render
`HH:MM:SS`, else render the fractional day count to one decimal plus
`" days"`. -/
def connection_duration (connected_since now : Int) : String :=
  let total := now - connected_since
  let hours := total.fdiv 3600
  let remainder := total.fmod 3600
  let minutes := remainder.fdiv 60
  let seconds := remainder.fmod 60
  if total ≤ 86400 then
    pad2 hours ++ ":" ++ pad2 minutes ++ ":" ++ pad2 seconds
  else
    formatFixedDiv total 86400 1 ++ " days"

/-- `peers_monitor.py` lines 81-83 (`truncate_with_ellipsis`):
`s[:N] + "..." if len(s) > N else s`. -/
def truncate_with_ellipsis (s : String) (N : Nat) : String :=
  if s.length > N then ((s.toList.take N).asString) ++ "..." else s

/-- `peers_monitor.py` lines 107-128 (body of the per-peer loop of
`build_peer_table`): decode the services string, set
`is_missing_node_network = "N" not in services` — a substring test on the
joined string — build the cells, and add the row highlighted exactly when
that flag is set. -/
def build_peer_row (now : Int) (peer : RawPeer) : Except String RowM :=
  match decode_services (peer.services.getD "0") with
  | .error e => .error e
  | .ok services =>
  let is_missing_node_network := !(pyIn "N" services)
  .ok { cells :=
          [toString peer.id,
           connection_duration (peer.conntime.getD 0) now,
           services,
           truncate_with_ellipsis (peer.subver.getD "Unknown") 20,
           toString (peer.version.getD 99),
           formatFixedDiv peer.bytessent 1048576 2 ++ " MB",
           formatFixedDiv peer.bytesrecv 1048576 2 ++ " MB",
           format_pingtime (peer.pingtime.getD (PingVal.str "N/A")),
           (if peer.inbound then "Yes" else ""),
           (if peer.relaytxes then "Yes" else "")],
         anomalous := is_missing_node_network }

end PeersMonitor

namespace PeersRich

/-- `peers_rich.py` lines 29-41: `decode_services`, textually identical to
the `peers.py` variant (tags `"N_N"`, `"N_W"`, `"N_C_F"`, `"N_N_L"`). -/
def decode_services : String → Except String String :=
  Peers.decode_services

/-- `peers_rich.py` lines 43-50: `connection_duration`, textually identical
to the `peers.py` variant (no days branch). -/
def connection_duration : Int → Int → String :=
  Peers.connection_duration

/-- `peers_rich.py` lines 83-108 (body of the per-peer loop of
`build_peer_table`): decode the services string, set
`is_missing_node_network = "N_N" not in services` — a substring test on
the joined string — build the cells, and add the row highlighted exactly
when that flag is set.  `subver`, `version`, `synced_headers` and
`synced_blocks` are mandatory accesses here. -/
def build_peer_row (now : Int) (peer : RawPeer) : Except String RowM :=
  match decode_services (peer.services.getD "0") with
  | .error e => .error e
  | .ok services =>
  let is_missing_node_network := !(pyIn "N_N" services)
  match req "subver" peer.subver with
  | .error e => .error e
  | .ok subver =>
  match req "version" peer.version with
  | .error e => .error e
  | .ok version =>
  .ok { cells :=
          [toString peer.id,
           peer.addr,
           connection_duration (peer.conntime.getD 0) now,
           services,
           subver,
           toString version,
           formatFixedDiv peer.bytessent 1048576 2 ++ " MB",
           formatFixedDiv peer.bytesrecv 1048576 2 ++ " MB",
           format_pingtime (peer.pingtime.getD (PingVal.str "N/A")),
           (if peer.inbound then "Inbound" else "Outbound"),
           toString peer.synced_headers,
           toString peer.synced_blocks,
           (match peer.banscore with
            | some b => toString b
            | none => "N/A"),
           (if peer.relaytxes then "Yes" else "No")],
         anomalous := is_missing_node_network }

end PeersRich

/-! ## Concrete peer records used by counterexamples and witnesses -/

/-- A peer advertising only NODE_NETWORK_LIMITED: services `"400"`
(hex for `1 <<< 10 = 1024`), banscore present and below the threshold. -/
def peerLimitedOnly : RawPeer :=
  { id := 7, addr := "9.8.7.6:8333", conntime := some 0, services := some "400",
    subver := some "/Satoshi/", version := some 70016, bytessent := 0, bytesrecv := 0,
    pingtime := none, inbound := false, synced_headers := 0, synced_blocks := 0,
    banscore := some 0, relaytxes := true }

/-- A nominal peer: services `"1"` (NODE_NETWORK only), low banscore. -/
def peerNominal : RawPeer :=
  { id := 1, addr := "10.0.0.1:8333", conntime := some 0, services := some "1",
    subver := some "/Satoshi/", version := some 70016, bytessent := 0, bytesrecv := 0,
    pingtime := none, inbound := true, synced_headers := 5, synced_blocks := 5,
    banscore := some 0, relaytxes := true }

/-- A peer over the ban threshold: banscore 150. -/
def peerHighBan : RawPeer :=
  { id := 2, addr := "1.2.3.4:8333", conntime := some 0, services := some "1",
    subver := some "/Satoshi/", version := some 70016, bytessent := 0, bytesrecv := 0,
    pingtime := none, inbound := false, synced_headers := 0, synced_blocks := 0,
    banscore := some 150, relaytxes := false }

/-- A peer whose `banscore` key is absent entirely. -/
def peerNoBanscore : RawPeer :=
  { id := 3, addr := "5.6.7.8:8333", conntime := some 0, services := some "1",
    subver := some "/Satoshi/", version := some 70016, bytessent := 0, bytesrecv := 0,
    pingtime := none, inbound := false, synced_headers := 0, synced_blocks := 0,
    banscore := none, relaytxes := true }

/-- A peer whose `services` value is not valid hexadecimal. -/
def peerBadHex : RawPeer :=
  { id := 4, addr := "4.4.4.4:8333", conntime := some 0, services := some "zz",
    subver := some "/Satoshi/", version := some 70016, bytessent := 0, bytesrecv := 0,
    pingtime := none, inbound := false, synced_headers := 0, synced_blocks := 0,
    banscore := some 0, relaytxes := true }

/-! ## C9: truncate_with_ellipsis -/

/-- C9: for every string `s` and width `max_len`, `truncate_with_ellipsis`
returns `s` unchanged when `len(s) ≤ max_len`, and otherwise returns the
first `max_len` characters of `s` followed by `"..."`, of length exactly
`max_len + 3`. -/
theorem C9_truncate (s : String) (max_len : Nat) :
    (s.length ≤ max_len → PeersMonitor.truncate_with_ellipsis s max_len = s)
    ∧ (max_len < s.length →
        PeersMonitor.truncate_with_ellipsis s max_len
          = ((s.toList.take max_len).asString) ++ "..."
        ∧ (PeersMonitor.truncate_with_ellipsis s max_len).length = max_len + 3) := by
  unfold PeersMonitor.truncate_with_ellipsis
  constructor
  · intro h
    rw [if_neg (by omega)]
  · intro h
    rw [if_pos h]
    refine ⟨rfl, ?_⟩
    rw [String.length_append]
    have h1 : ((s.toList.take max_len).asString).length = min max_len s.length := by
      rw [show ((s.toList.take max_len).asString).length
            = (s.toList.take max_len).length from rfl,
          List.length_take]
      rfl
    rw [h1]
    have h2 : "...".length = 3 := rfl
    rw [h2]
    omega

/-- C9 witness: the two documented examples, `truncate("abcdefghij", 5) =
"abcde..."` (length 8) and `truncate("ab", 5) = "ab"`. -/
theorem C9_truncate_witness :
    PeersMonitor.truncate_with_ellipsis "abcdefghij" 5 = "abcde..."
    ∧ PeersMonitor.truncate_with_ellipsis "ab" 5 = "ab"
    ∧ (PeersMonitor.truncate_with_ellipsis "abcdefghij" 5).length = 8 := by
  refine ⟨?_, ?_, ?_⟩
  · exact (((C9_truncate "abcdefghij" 5).2 (by decide)).1).trans (by decide)
  · exact (C9_truncate "ab" 5).1 (by decide)
  · exact ((C9_truncate "abcdefghij" 5).2 (by decide)).2

/-! ## C10: missing banscore never bans -/

/-- C10: a peer record lacking the `banscore` key entirely is treated as
banscore 0 by `analyze_peers` and can never produce a ban request (the
ban check is `banscore > 100` with the hard-coded threshold 100). -/
theorem C10_missing_banscore (p : RawPeer) (ip : String) (h : p.banscore = none) :
    Peers.analyze_peer p ≠ Except.ok (Peers.Action.requestBan ip) := by
  unfold Peers.analyze_peer
  rw [h]
  cases hdec : Peers.decode_services (p.services.getD "0") with
  | error e => simp
  | ok services =>
    simp only [Option.getD_none]
    rw [if_neg (by omega)]
    split <;> simp

/-- C10 witness: the concrete peer without a banscore key is not banned. -/
theorem C10_missing_banscore_witness :
    peerNoBanscore.banscore = none
    ∧ Peers.analyze_peer peerNoBanscore ≠ Except.ok (Peers.Action.requestBan "5.6.7.8") :=
  ⟨by decide, C10_missing_banscore peerNoBanscore "5.6.7.8" (by decide)⟩

/-! ## C8: format_pingtime -/

/-- C8: the ping formatter maps an absent value (rendered through the
callers' `peer.get('pingtime', 'N/A')` default) to `"N/A"`, a parseable
number to its three-decimal rendering, and a present but unparseable
string to `"N/A"`; it is a total function, so it never fails the row. -/
theorem C8_format_pingtime :
    format_pingtime (PingVal.str "N/A") = "N/A"
    ∧ (∀ p : RawPeer, p.pingtime = none →
        format_pingtime (p.pingtime.getD (PingVal.str "N/A")) = "N/A")
    ∧ (∀ s, parseFloat? s = none → format_pingtime (PingVal.str s) = "N/A")
    ∧ (∀ s num den, s ≠ "N/A" → parseFloat? s = some (num, den) →
        format_pingtime (PingVal.str s) = formatFixedDiv num (den : Int) 3)
    ∧ (∀ num den, format_pingtime (PingVal.num num den) = formatFixedDiv num (den : Int) 3)
    ∧ format_pingtime (PingVal.str "0.125") = "0.125"
    ∧ format_pingtime (PingVal.str "oops") = "N/A" := by
  refine ⟨rfl, ?_, ?_, ?_, fun num den => rfl, by decide, by decide⟩
  · intro p h
    rw [h]
    rfl
  · intro s h
    simp only [format_pingtime]
    by_cases hs : s = "N/A"
    · rw [if_pos hs]
      exact hs
    · rw [if_neg hs, h]
  · intro s num den hs h
    simp only [format_pingtime]
    rw [if_neg hs, h]

/-- C8 witness: `format_pingtime` on a parseable string `"7"` (via the
general parseable clause) and on the unparseable `"xy"`. -/
theorem C8_format_pingtime_witness :
    format_pingtime (PingVal.str "7") = "7.000"
    ∧ format_pingtime (PingVal.str "xy") = "N/A" := by
  refine ⟨?_, ?_⟩
  · exact (C8_format_pingtime.2.2.2.1 "7" 7 1 (by decide) (by decide)).trans (by decide)
  · exact C8_format_pingtime.2.2.1 "xy" (by decide)

/-! ## C3: translate_services -/

/-- The append-per-set-bit fold is the enumeration-order filter of the
table, mapped to tags. -/
theorem foldl_select_eq_filter (m : Nat) (l : List (Nat × String)) (acc : List String) :
    l.foldl
      (fun a p => if m &&& p.1 != 0 then a ++ [p.2] else a) acc
      = acc ++ (l.filter (fun p => m &&& p.1 != 0)).map Prod.snd := by
  induction l generalizing acc with
  | nil => simp
  | cons p t ih =>
    rw [List.foldl_cons, List.filter_cons]
    by_cases hp : (m &&& p.1 != 0) = true
    · rw [if_pos hp, if_pos hp, ih]
      simp
    · rw [if_neg hp, if_neg hp, ih]

/-- The list of tags selected by the six bit tests, in enumeration order. -/
def selList (b1 b2 b3 b4 b5 b6 : Bool) : List String :=
  (if b1 then ["NODE_NETWORK"] else []) ++
  (if b2 then ["NODE_GETUTXOS"] else []) ++
  (if b3 then ["NODE_BLOOM"] else []) ++
  (if b4 then ["NODE_WITNESS"] else []) ++
  (if b5 then ["NODE_XTHIN"] else []) ++
  (if b6 then ["NODE_NETWORK_LIMITED"] else [])

/-- `translate_services` in terms of the six independent bit tests. -/
theorem translate_services_eq_selList (m : Nat) :
    Peerinfo2.translate_services m
      = selList (m &&& 0x01 != 0) (m &&& 0x02 != 0) (m &&& 0x04 != 0)
          (m &&& 0x08 != 0) (m &&& 0x10 != 0) (m &&& 0x40000000 != 0) := by
  rw [Peerinfo2.translate_services, foldl_select_eq_filter, List.nil_append]
  simp only [Peerinfo2.SERVICES, List.filter_cons, List.filter_nil, selList]
  by_cases h1 : (m &&& 0x01 != 0) = true <;>
    by_cases h2 : (m &&& 0x02 != 0) = true <;>
    by_cases h3 : (m &&& 0x04 != 0) = true <;>
    by_cases h4 : (m &&& 0x08 != 0) = true <;>
    by_cases h5 : (m &&& 0x10 != 0) = true <;>
    by_cases h6 : (m &&& 0x40000000 != 0) = true <;>
    simp only [h1, h2, h3, h4, h5, h6, if_true, if_false, ite_true, ite_false,
      eq_self_iff_true, not_true, not_false_iff] <;>
    simp

/-- Membership of each tag in the selected list equals its bit test. -/
theorem mem_selList_iff : ∀ b1 b2 b3 b4 b5 b6 : Bool,
    (("NODE_NETWORK" ∈ selList b1 b2 b3 b4 b5 b6) ↔ b1 = true)
    ∧ (("NODE_GETUTXOS" ∈ selList b1 b2 b3 b4 b5 b6) ↔ b2 = true)
    ∧ (("NODE_BLOOM" ∈ selList b1 b2 b3 b4 b5 b6) ↔ b3 = true)
    ∧ (("NODE_WITNESS" ∈ selList b1 b2 b3 b4 b5 b6) ↔ b4 = true)
    ∧ (("NODE_XTHIN" ∈ selList b1 b2 b3 b4 b5 b6) ↔ b5 = true)
    ∧ (("NODE_NETWORK_LIMITED" ∈ selList b1 b2 b3 b4 b5 b6) ↔ b6 = true) := by
  decide

/-- C3: for every bitmask `m` and every enumerated (bit, tag) pair, the
decoded list contains the tag iff `m &&& bit ≠ 0`; decoding 0 yields the
empty list; and the output is the enumeration-order filter of the table
(so unknown bits are ignored and tags keep enumeration order). -/
theorem C3_translate_services (m : Nat) :
    (∀ bit tag, (bit, tag) ∈ Peerinfo2.SERVICES →
        (tag ∈ Peerinfo2.translate_services m ↔ m &&& bit ≠ 0))
    ∧ Peerinfo2.translate_services 0 = []
    ∧ Peerinfo2.translate_services m
        = (Peerinfo2.SERVICES.filter (fun p => m &&& p.1 != 0)).map Prod.snd := by
  refine ⟨?_, by decide, ?_⟩
  · intro bit tag hmem
    rw [translate_services_eq_selList]
    have hsel := mem_selList_iff (m &&& 0x01 != 0) (m &&& 0x02 != 0) (m &&& 0x04 != 0)
      (m &&& 0x08 != 0) (m &&& 0x10 != 0) (m &&& 0x40000000 != 0)
    simp only [Peerinfo2.SERVICES, List.mem_cons, List.not_mem_nil, or_false,
      Prod.mk.injEq] at hmem
    rcases hmem with ⟨hb, ht⟩ | ⟨hb, ht⟩ | ⟨hb, ht⟩ | ⟨hb, ht⟩ | ⟨hb, ht⟩ | ⟨hb, ht⟩ <;>
      subst hb <;> subst ht
    · rw [hsel.1]; exact bne_iff_ne
    · rw [hsel.2.1]; exact bne_iff_ne
    · rw [hsel.2.2.1]; exact bne_iff_ne
    · rw [hsel.2.2.2.1]; exact bne_iff_ne
    · rw [hsel.2.2.2.2.1]; exact bne_iff_ne
    · rw [hsel.2.2.2.2.2]; exact bne_iff_ne
  · rw [Peerinfo2.translate_services, foldl_select_eq_filter, List.nil_append]

/-- C3 witness: for `m = 9` (bits 0 and 3), NODE_WITNESS is reported and
NODE_BLOOM is not; decoding 0 yields no tags. -/
theorem C3_translate_services_witness :
    ("NODE_WITNESS" ∈ Peerinfo2.translate_services 9)
    ∧ ("NODE_BLOOM" ∉ Peerinfo2.translate_services 9)
    ∧ Peerinfo2.translate_services 0 = [] := by
  refine ⟨?_, ?_, (C3_translate_services 0).2.1⟩
  · exact ((C3_translate_services 9).1 0x08 "NODE_WITNESS" (by decide)).mpr (by decide)
  · intro hmem
    exact absurd (((C3_translate_services 9).1 0x04 "NODE_BLOOM" (by decide)).mp hmem)
      (by decide)

/-! ## C1 and C2: the anomalous flag and the policy decision -/

/-- Substring test `"N" in services` on the joined monitor-style tag list:
it is `true` exactly when the NETWORK tag or the NETWORK_LIMITED tag was
selected, because `"N"` also occurs inside `"N_L"`. -/
theorem pyIn_monitor_select : ∀ b0 b3 b6 b10 : Bool,
    pyIn "N" (String.intercalate ", "
      ((if b0 then ["N"] else []) ++ (if b3 then ["W"] else []) ++
       (if b6 then ["C_F"] else []) ++ (if b10 then ["N_L"] else [])))
      = (b0 || b10) := by
  decide

/-- Substring test `"N_N" in services` on the joined peers/rich-style tag
list: it is `true` exactly when the NETWORK tag or the NETWORK_LIMITED tag
was selected, because `"N_N"` also occurs inside `"N_N_L"`. -/
theorem pyIn_nn_select : ∀ b0 b3 b6 b10 : Bool,
    pyIn "N_N" (String.intercalate ", "
      ((if b0 then ["N_N"] else []) ++ (if b3 then ["N_W"] else []) ++
       (if b6 then ["N_C_F"] else []) ++ (if b10 then ["N_N_L"] else [])))
      = (b0 || b10) := by
  decide

/-- `peers_monitor.py`'s `decode_services` on a string whose hex parse
succeeds. -/
theorem decode_monitor_eq (s : String) (n : Int) (h : parseIntHex s = some n) :
    PeersMonitor.decode_services s = Except.ok (String.intercalate ", "
      ((if landI n PeersMonitor.NODE_NETWORK != 0 then ["N"] else []) ++
       (if landI n PeersMonitor.NODE_WITNESS != 0 then ["W"] else []) ++
       (if landI n PeersMonitor.NODE_COMPACT_FILTERS != 0 then ["C_F"] else []) ++
       (if landI n PeersMonitor.NODE_NETWORK_LIMITED != 0 then ["N_L"] else []))) := by
  unfold PeersMonitor.decode_services
  rw [h]

/-- `peers.py`'s `decode_services` on a string whose hex parse succeeds. -/
theorem decode_peers_eq (s : String) (n : Int) (h : parseIntHex s = some n) :
    Peers.decode_services s = Except.ok (String.intercalate ", "
      ((if landI n Peers.NODE_NETWORK != 0 then ["N_N"] else []) ++
       (if landI n Peers.NODE_WITNESS != 0 then ["N_W"] else []) ++
       (if landI n Peers.NODE_COMPACT_FILTERS != 0 then ["N_C_F"] else []) ++
       (if landI n Peers.NODE_NETWORK_LIMITED != 0 then ["N_N_L"] else []))) := by
  unfold Peers.decode_services
  rw [h]

/-- The missing-NETWORK substring test, rewritten to the two bit tests. -/
theorem flag_monitor_eq (n : Int) :
    (!(pyIn "N" (String.intercalate ", "
      ((if landI n PeersMonitor.NODE_NETWORK != 0 then ["N"] else []) ++
       (if landI n PeersMonitor.NODE_WITNESS != 0 then ["W"] else []) ++
       (if landI n PeersMonitor.NODE_COMPACT_FILTERS != 0 then ["C_F"] else []) ++
       (if landI n PeersMonitor.NODE_NETWORK_LIMITED != 0 then ["N_L"] else [])))))
      = (landI n PeersMonitor.NODE_NETWORK == 0 && landI n PeersMonitor.NODE_NETWORK_LIMITED == 0) := by
  rw [pyIn_monitor_select]
  cases hb0 : (landI n PeersMonitor.NODE_NETWORK == 0) <;>
    cases hb10 : (landI n PeersMonitor.NODE_NETWORK_LIMITED == 0) <;>
    simp_all [bne]

/-- The missing-NETWORK substring test of the `peers.py`/`peers_rich.py`
variants, rewritten to the two bit tests. -/
theorem flag_nn_eq (n : Int) :
    (!(pyIn "N_N" (String.intercalate ", "
      ((if landI n Peers.NODE_NETWORK != 0 then ["N_N"] else []) ++
       (if landI n Peers.NODE_WITNESS != 0 then ["N_W"] else []) ++
       (if landI n Peers.NODE_COMPACT_FILTERS != 0 then ["N_C_F"] else []) ++
       (if landI n Peers.NODE_NETWORK_LIMITED != 0 then ["N_N_L"] else [])))))
      = (landI n Peers.NODE_NETWORK == 0 && landI n Peers.NODE_NETWORK_LIMITED == 0) := by
  rw [pyIn_nn_select]
  cases hb0 : (landI n Peers.NODE_NETWORK == 0) <;>
    cases hb10 : (landI n Peers.NODE_NETWORK_LIMITED == 0) <;>
    simp_all [bne]

/-- C1 counterexample: the peer whose services bitmask is `0x400`
(NODE_NETWORK_LIMITED only, NETWORK bit clear) is NOT rendered anomalous
by either row builder, because the substring test `"N" in "N_L"`
(respectively `"N_N" in "N_N_L"`) succeeds; the claim requires
`anomalous = true` for it. -/
theorem C1_counterexample :
    (PeersMonitor.build_peer_row 1000 peerLimitedOnly).map RowM.anomalous = Except.ok false
    ∧ (PeersRich.build_peer_row 1000 peerLimitedOnly).map RowM.anomalous = Except.ok false
    ∧ parseIntHex "400" = some 1024
    ∧ landI 1024 PeersMonitor.NODE_NETWORK = 0 := by
  refine ⟨by decide, by decide, by decide, by decide⟩

/-- C1 amended: for a peer whose services string parses to bitmask `n`
(with `subver` and `version` present so the rich row builds), the anomalous
flag of both row builders is `true` exactly when BOTH the NETWORK bit and
the NETWORK_LIMITED bit are clear in `n` — not when the NETWORK tag alone
is absent, because the membership test is a substring test on the joined
tag string and `"N"`/`"N_N"` occurs inside the NETWORK_LIMITED tag. -/
theorem C1_amended (now : Int) (p : RawPeer) (n : Int) (sv : String) (v : Int)
    (hp : parseIntHex (p.services.getD "0") = some n)
    (hs : p.subver = some sv) (hv : p.version = some v) :
    (PeersMonitor.build_peer_row now p).map RowM.anomalous
      = Except.ok (landI n PeersMonitor.NODE_NETWORK == 0
          && landI n PeersMonitor.NODE_NETWORK_LIMITED == 0)
    ∧ (PeersRich.build_peer_row now p).map RowM.anomalous
      = Except.ok (landI n Peers.NODE_NETWORK == 0
          && landI n Peers.NODE_NETWORK_LIMITED == 0) := by
  constructor
  · unfold PeersMonitor.build_peer_row
    rw [decode_monitor_eq _ n hp]
    simp only [Except.map]
    rw [flag_monitor_eq]
  · unfold PeersRich.build_peer_row
    rw [show PeersRich.decode_services = Peers.decode_services from rfl,
      decode_peers_eq _ n hp, hs, hv]
    simp only [req, Except.map]
    rw [flag_nn_eq]

/-- C1 witness: a nominal peer with services `"1"` (NETWORK bit set) is not
anomalous in either variant. -/
theorem C1_amended_witness :
    (PeersMonitor.build_peer_row 0 peerNominal).map RowM.anomalous = Except.ok false
    ∧ (PeersRich.build_peer_row 0 peerNominal).map RowM.anomalous = Except.ok false := by
  have h := C1_amended 0 peerNominal 1 "/Satoshi/" 70016 (by decide) rfl rfl
  exact ⟨h.1.trans (by decide), h.2.trans (by decide)⟩

/-- `takeWhile` up to the first `':'`. -/
theorem takeWhile_append_colon (s1 s2 : List Char) (h : ':' ∉ s1) :
    (s1 ++ ':' :: s2).takeWhile (fun c => c ≠ ':') = s1 := by
  induction s1 with
  | nil => simp [List.takeWhile]
  | cons c t ih =>
    have hc : c ≠ ':' := fun hcc => h (by simp [hcc])
    have ht : ':' ∉ t := fun htt => h (by simp [htt])
    simp only [List.cons_append, List.takeWhile_cons]
    rw [if_pos (by simp [hc]), ih ht]

/-- C2 counterexample: a peer with banscore below the threshold and
services `0x400` (NETWORK bit clear, NETWORK_LIMITED set) gets action
`none` from `analyze_peers`, not the `Warn` the claim requires, because
the warn check is the substring test `'N_N' not in services` and the
decoded string is `"N_N_L"`. -/
theorem C2_counterexample :
    Peers.analyze_peer peerLimitedOnly = Except.ok Peers.Action.none
    ∧ Peers.analyze_peer peerLimitedOnly ≠ Except.ok (Peers.Action.warn peerLimitedOnly.addr)
    ∧ parseIntHex "400" = some 1024
    ∧ landI 1024 Peers.NODE_NETWORK = 0
    ∧ peerLimitedOnly.banscore = some 0 := by
  refine ⟨by decide, by decide, by decide, by decide, by decide⟩

/-- C2 amended: for a peer whose services string parses to bitmask `n`,
`analyze_peers` requests a ban exactly when `banscore > 100` (the
hard-coded threshold), with ban target the substring of `addr` before its
first `':'`; otherwise it warns exactly when BOTH the NETWORK and the
NETWORK_LIMITED bits are clear (a substring test, see C1), and otherwise
does nothing.  The second conjunct characterizes the ban target: for any
address of shape `s1 ++ ":" ++ s2` with no `':'` in `s1`, the target is
`s1`. -/
theorem C2_amended (p : RawPeer) (n : Int)
    (hp : parseIntHex (p.services.getD "0") = some n) :
    Peers.analyze_peer p = Except.ok
      (if p.banscore.getD 0 > 100 then Peers.Action.requestBan (Peers.ban_target p.addr)
       else if landI n Peers.NODE_NETWORK == 0 && landI n Peers.NODE_NETWORK_LIMITED == 0
       then Peers.Action.warn p.addr
       else Peers.Action.none)
    ∧ ∀ (s1 s2 : List Char), ':' ∉ s1 →
        Peers.ban_target ((s1 ++ ':' :: s2).asString) = s1.asString := by
  constructor
  · unfold Peers.analyze_peer
    rw [decode_peers_eq _ n hp]
    dsimp only
    by_cases hb : p.banscore.getD 0 > 100
    · rw [if_pos hb, if_pos hb]
    · rw [if_neg hb, if_neg hb, flag_nn_eq]
      cases hf : (landI n Peers.NODE_NETWORK == 0 && landI n Peers.NODE_NETWORK_LIMITED == 0) <;>
        simp [hf]
  · intro s1 s2 h
    unfold Peers.ban_target
    rw [show ((s1 ++ ':' :: s2).asString).toList = s1 ++ ':' :: s2 from rfl,
      takeWhile_append_colon s1 s2 h]

/-- C2 witness: the peer with banscore 150 is banned with target
`"1.2.3.4"` (the part of `"1.2.3.4:8333"` before the first colon), and the
ban-target clause applied to a concrete address split. -/
theorem C2_amended_witness :
    Peers.analyze_peer peerHighBan = Except.ok (Peers.Action.requestBan "1.2.3.4")
    ∧ Peers.ban_target ((['a', 'b'] ++ ':' :: ['c', 'd']).asString) = ['a', 'b'].asString := by
  have h := C2_amended peerHighBan 1 (by decide)
  exact ⟨h.1.trans (by decide), h.2 ['a', 'b'] ['c', 'd'] (by decide)⟩

/-! ## C7: connection_duration -/

/-- The `HH:MM:SS` rendering produced by the floor-divmod split of an
elapsed-seconds value, as both `connection_duration` variants compute it
(spec-side rendering used to state the amended C7). -/
def hhmmssOf (total : Int) : String :=
  pad2 (total.fdiv 3600) ++ ":" ++ pad2 ((total.fmod 3600).fdiv 60) ++ ":"
    ++ pad2 ((total.fmod 3600).fmod 60)

/-- C7 counterexample: negative elapsed time is NOT clamped to zero — for
`conntime = now + 1` the monitor variant renders `"-1:59:59"` (floor
divmod of −1), not `"00:00:00"`; and the `peers.py` variant has no days
branch at all, rendering 90000 s as `"25:00:00"`, not `"1.0 days"`. -/
theorem C7_counterexample :
    PeersMonitor.connection_duration 1 0 = "-1:59:59"
    ∧ "-1:59:59" ≠ "00:00:00"
    ∧ Peers.connection_duration 0 90000 = "25:00:00"
    ∧ "25:00:00" ≠ "1.0 days" := by
  refine ⟨by decide, by decide, by decide, by decide⟩

/-- C7 amended: with `elapsed = now − conntime` NOT clamped at zero, the
monitor/rich2 variant renders the floor-divmod `HH:MM:SS` (negative hour
field included) whenever `elapsed ≤ 86400` and the one-decimal fractional
day count suffixed `" days"` whenever `elapsed > 86400`; the
`peers.py`/`peers_rich.py` variant always renders `HH:MM:SS`.  Zero
elapsed gives `"00:00:00"` and 90000 s gives `"1.0 days"` in the monitor
variant. -/
theorem C7_amended (connected_since now : Int) :
    (now - connected_since ≤ 86400 →
      PeersMonitor.connection_duration connected_since now = hhmmssOf (now - connected_since))
    ∧ (86400 < now - connected_since →
      PeersMonitor.connection_duration connected_since now
        = formatFixedDiv (now - connected_since) 86400 1 ++ " days")
    ∧ Peers.connection_duration connected_since now = hhmmssOf (now - connected_since)
    ∧ PeersMonitor.connection_duration now now = "00:00:00"
    ∧ PeersMonitor.connection_duration (now - 90000) now = "1.0 days" := by
  refine ⟨?_, ?_, rfl, ?_, ?_⟩
  · intro h
    unfold PeersMonitor.connection_duration
    rw [if_pos h]
    rfl
  · intro h
    unfold PeersMonitor.connection_duration
    rw [if_neg (by omega)]
  · have h0 : now - now = (0 : Int) := by ring
    unfold PeersMonitor.connection_duration
    rw [h0]
    decide
  · have h9 : now - (now - 90000) = (90000 : Int) := by ring
    unfold PeersMonitor.connection_duration
    rw [h9]
    decide

/-- C7 witness: the documented example `connection_duration(now − 3661,
now) = "01:01:01"` through the `HH:MM:SS` clause, and the days clause at
90001 s. -/
theorem C7_amended_witness :
    PeersMonitor.connection_duration 0 3661 = "01:01:01"
    ∧ PeersMonitor.connection_duration 0 90001 = "1.0 days" := by
  refine ⟨((C7_amended 0 3661).1 (by decide)).trans (by decide), ?_⟩
  exact ((C7_amended 0 90001).2.1 (by decide)).trans (by decide)

/-! ## C4: invalid hexadecimal services -/

/-- C4 counterexample: on the non-hex string `"oops"` both decoders raise
(`ValueError` from `int(s, 16)`), rather than treating the peer as
advertising zero services (which would be `Except.ok ""`). -/
theorem C4_counterexample :
    PeersMonitor.decode_services "oops"
      = Except.error "invalid literal for int() with base 16: oops"
    ∧ PeersMonitor.decode_services "oops" ≠ Except.ok ""
    ∧ Peers.decode_services "oops"
      = Except.error "invalid literal for int() with base 16: oops"
    ∧ Peers.decode_services "oops" ≠ Except.ok "" := by
  refine ⟨by decide, by decide, by decide, by decide⟩

/-- The table build fails as soon as any peer's row build fails. -/
theorem format_peer_info_error_of_mem (now : Int) (peers : List RawPeer) (p : RawPeer)
    (hx : p ∈ peers) (hf : ∃ e, Peers.format_peer_data now p = Except.error e) :
    ∃ e, Peers.format_peer_info now peers = Except.error e := by
  induction peers with
  | nil => cases hx
  | cons a t ih =>
    unfold Peers.format_peer_info
    cases ha : Peers.format_peer_data now a with
    | error e => exact ⟨e, rfl⟩
    | ok b =>
      rcases List.mem_cons.mp hx with rfl | hxt
      · rcases hf with ⟨e, he⟩
        rw [ha] at he
        cases he
      · rcases ih hxt with ⟨e, he⟩
        rw [he]
        exact ⟨e, rfl⟩

/-- C4 amended: a services string that is not valid hexadecimal makes
`decode_services` raise a `ValueError` instead of substituting zero
services; in `peers.py`'s table pipeline the exception aborts the whole
row list, and in the real-time loop the `except` clause then replaces the
entire cycle's table with an error banner — the row is dropped, not built
with zero tags. -/
theorem C4_amended (s : String) (h : parseIntHex s = none) :
    PeersMonitor.decode_services s
      = Except.error ("invalid literal for int() with base 16: " ++ s)
    ∧ Peers.decode_services s
      = Except.error ("invalid literal for int() with base 16: " ++ s)
    ∧ ∀ (now : Int) (peers : List RawPeer) (p : RawPeer),
        p ∈ peers → p.services = some s →
        (∃ e, Peers.format_peer_info now peers = Except.error e)
        ∧ ∀ keys, ∃ e,
            Peers.renderCycle ⟨Peers.FetchOutcome.ok peers, keys, now⟩
              = Peers.Screen.banner e := by
  have hm : PeersMonitor.decode_services s
      = Except.error ("invalid literal for int() with base 16: " ++ s) := by
    unfold PeersMonitor.decode_services
    rw [h]
  have hp : Peers.decode_services s
      = Except.error ("invalid literal for int() with base 16: " ++ s) := by
    unfold Peers.decode_services
    rw [h]
  refine ⟨hm, hp, ?_⟩
  intro now peers p hmem hsrv
  have hrow : ∃ e, Peers.format_peer_data now p = Except.error e := by
    refine ⟨"invalid literal for int() with base 16: " ++ s, ?_⟩
    unfold Peers.format_peer_data
    rw [show p.services.getD "0" = s from by rw [hsrv]; rfl, hp]
  have htab : ∃ e, Peers.format_peer_info now peers = Except.error e :=
    format_peer_info_error_of_mem now peers p hmem hrow
  refine ⟨htab, ?_⟩
  intro keys
  rcases htab with ⟨e, he⟩
  refine ⟨e, ?_⟩
  unfold Peers.renderCycle
  dsimp only
  rw [he]

/-- C4 witness: the amended claim at the concrete non-hex string `"zz"`
carried by `peerBadHex` — the decoder errors and one refresh-cycle render
over a snapshot containing that peer produces an error banner, not a
table. -/
theorem C4_amended_witness :
    PeersMonitor.decode_services "zz"
      = Except.error "invalid literal for int() with base 16: zz"
    ∧ Peers.decode_services "zz" ≠ Except.ok "" := by
  have h := C4_amended "zz" (by decide)
  refine ⟨h.1.trans (by decide), ?_⟩
  rw [h.2.1]
  decide

/-! ## C5 and C6: the refresh loop -/

/-- One non-quitting cycle renders its screen and the loop continues. -/
theorem runLoop_cons_no_quit (c : Peers.CycleInput) (rest : List Peers.CycleInput)
    (h : (Peers.waitCycle c.keys).2 = false) :
    Peers.runLoop (c :: rest)
      = (Peers.renderCycle c :: (Peers.runLoop rest).1, (Peers.runLoop rest).2) := by
  simp [Peers.runLoop, h]

/-- A cycle whose wait sees the quit key renders its screen and the loop
returns. -/
theorem runLoop_cons_quit (c : Peers.CycleInput) (rest : List Peers.CycleInput)
    (h : (Peers.waitCycle c.keys).2 = true) :
    Peers.runLoop (c :: rest) = ([Peers.renderCycle c], true) := by
  simp [Peers.runLoop, h]

/-- Running the loop over a prefix of non-quitting cycles renders every one
of their screens — whatever each fetch returned — and then behaves on the
remaining cycles exactly as a loop started there. -/
theorem runLoop_append_no_quit (pre rest : List Peers.CycleInput)
    (h : ∀ x ∈ pre, (Peers.waitCycle x.keys).2 = false) :
    Peers.runLoop (pre ++ rest)
      = (pre.map Peers.renderCycle ++ (Peers.runLoop rest).1, (Peers.runLoop rest).2) := by
  induction pre with
  | nil => simp
  | cons c t ih =>
    rw [List.cons_append, runLoop_cons_no_quit c (t ++ rest) (h c (by simp)),
      ih (fun x hx => h x (by simp [hx]))]
    simp

/-- The loop only ever returns because some cycle's wait saw the quit
key. -/
theorem terminated_has_quit (inputs : List Peers.CycleInput)
    (h : (Peers.runLoop inputs).2 = true) :
    ∃ c ∈ inputs, (Peers.waitCycle c.keys).2 = true := by
  induction inputs with
  | nil => simp [Peers.runLoop] at h
  | cons c t ih =>
    cases hq : (Peers.waitCycle c.keys).2 with
    | true => exact ⟨c, by simp, hq⟩
    | false =>
      rw [runLoop_cons_no_quit c t hq] at h
      rcases ih h with ⟨x, hx, hxq⟩
      exact ⟨x, by simp [hx], hxq⟩

/-- C5: a fetch failure on cycle N is never fatal.  With cycles `pre`
before the failing cycle `c` (fetch raised `e`) and `post` after it, and
no quit key during `pre` or `c`: the failing cycle renders the error
banner in place of a table, the loop proceeds into `post` exactly as a
fresh loop would (in particular the next cycle's fetch outcome is
rendered), and the loop returns only when some cycle's wait saw the quit
key — never because a fetch failed. -/
theorem C5_fetch_failure_not_fatal (pre : List Peers.CycleInput) (c : Peers.CycleInput)
    (post : List Peers.CycleInput) (e : String)
    (hfail : c.fetch = Peers.FetchOutcome.fail e)
    (hnq : ∀ x ∈ pre, (Peers.waitCycle x.keys).2 = false)
    (hcq : (Peers.waitCycle c.keys).2 = false) :
    (Peers.runLoop (pre ++ c :: post)).1
      = pre.map Peers.renderCycle ++ Peers.Screen.banner e :: (Peers.runLoop post).1
    ∧ (Peers.runLoop (pre ++ c :: post)).2 = (Peers.runLoop post).2
    ∧ (∀ c' post', post = c' :: post' →
        ∃ t b, Peers.runLoop (pre ++ c :: post)
          = (pre.map Peers.renderCycle
              ++ Peers.Screen.banner e :: Peers.renderCycle c' :: t, b))
    ∧ ((Peers.runLoop (pre ++ c :: post)).2 = true →
        ∃ ci ∈ pre ++ c :: post, (Peers.waitCycle ci.keys).2 = true) := by
  have hbanner : Peers.renderCycle c = Peers.Screen.banner e := by
    unfold Peers.renderCycle
    rw [hfail]
  have hmain : Peers.runLoop (pre ++ c :: post)
      = (pre.map Peers.renderCycle ++ Peers.renderCycle c :: (Peers.runLoop post).1,
         (Peers.runLoop post).2) := by
    rw [runLoop_append_no_quit pre (c :: post) hnq, runLoop_cons_no_quit c post hcq]
  refine ⟨?_, ?_, ?_, fun h => terminated_has_quit _ h⟩
  · rw [hmain, hbanner]
  · rw [hmain]
  · intro c' post' hpost
    subst hpost
    cases hq' : (Peers.waitCycle c'.keys).2 with
    | false =>
      refine ⟨(Peers.runLoop post').1, (Peers.runLoop post').2, ?_⟩
      rw [hmain, hbanner, runLoop_cons_no_quit c' post' hq']
    | true =>
      refine ⟨[], true, ?_⟩
      rw [hmain, hbanner, runLoop_cons_quit c' post' hq']

/-- Cycle events for the C5 witness: a failing fetch with no key pressed,
then a successful empty fetch with the quit key pressed. -/
def cycleFail : Peers.CycleInput :=
  { fetch := Peers.FetchOutcome.fail "boom", keys := [], now := 0 }

def cycleQuit : Peers.CycleInput :=
  { fetch := Peers.FetchOutcome.ok [], keys := [113], now := 0 }

/-- C5 witness: after the failing cycle (rendered as the banner) the next
cycle still fetches and renders its table, and the loop ends only at the
quit key. -/
theorem C5_fetch_failure_not_fatal_witness :
    (Peers.runLoop [cycleFail, cycleQuit]).1
      = [Peers.Screen.banner "boom", Peers.Screen.table []]
    ∧ (Peers.runLoop [cycleFail, cycleQuit]).2 = true := by
  have h := C5_fetch_failure_not_fatal [] cycleFail [cycleQuit] "boom" rfl
    (by simp) (by decide)
  exact ⟨h.1.trans (by decide), h.2.1.trans (by decide)⟩

/-- Scanning the polled keys up to the first quit key: the wait sleeps
exactly 100 ms per earlier poll and reports the quit. -/
theorem waitScan_quit_split (ks1 ks2 : List Int) (h : Peers.qKey ∉ ks1) :
    Peers.waitScan (ks1 ++ Peers.qKey :: ks2) = (100 * ks1.length, 1) := by
  induction ks1 with
  | nil => simp [Peers.waitScan]
  | cons k t ih =>
    have hk : ¬ k = Peers.qKey := fun hkq => h (by simp [hkq])
    have ht : Peers.qKey ∉ t := fun htt => h (by simp [htt])
    rw [List.cons_append,
      show Peers.waitScan (k :: (t ++ Peers.qKey :: ks2))
          = if k = Peers.qKey then ((0, 1) : Nat × Nat)
            else (100 + (Peers.waitScan (t ++ Peers.qKey :: ks2)).1,
                  (Peers.waitScan (t ++ Peers.qKey :: ks2)).2) from rfl,
      if_neg hk, ih ht, List.length_cons, Nat.mul_succ,
      Nat.add_comm 100 (100 * t.length)]

/-- C6: a quit key arriving during a cycle's wait window cancels the loop
at that cycle: later cycles are never fetched or rendered, the loop
reports termination, and the quit is acted on after exactly one 100 ms
sleep per poll that preceded it in the window (so the check runs every
100 ms). -/
theorem C6_cancel_during_wait (pre : List Peers.CycleInput) (c : Peers.CycleInput)
    (post : List Peers.CycleInput) (ks1 ks2 : List Int)
    (hnq : ∀ x ∈ pre, (Peers.waitCycle x.keys).2 = false)
    (hsplit : Peers.pollKeys c.keys = ks1 ++ Peers.qKey :: ks2)
    (hq : Peers.qKey ∉ ks1) :
    Peers.runLoop (pre ++ c :: post)
      = (pre.map Peers.renderCycle ++ [Peers.renderCycle c], true)
    ∧ Peers.waitCycle c.keys = (100 * ks1.length, true) := by
  have hw : Peers.waitCycle c.keys = (100 * ks1.length, true) := by
    unfold Peers.waitCycle
    rw [hsplit, waitScan_quit_split ks1 ks2 hq]
    rfl
  have hquit : (Peers.waitCycle c.keys).2 = true := by rw [hw]
  refine ⟨?_, hw⟩
  rw [runLoop_append_no_quit pre (c :: post) hnq, runLoop_cons_quit c post hquit]

/-- Cycle events for the C6 witness: one no-key poll, then the quit key. -/
def cycleWaitQuit : Peers.CycleInput :=
  { fetch := Peers.FetchOutcome.ok [], keys := [-1, 113], now := 5 }

def cycleNever : Peers.CycleInput :=
  { fetch := Peers.FetchOutcome.ok [], keys := [], now := 5 }

/-- C6 witness: the quit key at the second poll cancels the loop after one
100 ms sleep; the following cycle is never rendered. -/
theorem C6_cancel_during_wait_witness :
    Peers.runLoop [cycleWaitQuit, cycleNever] = ([Peers.renderCycle cycleWaitQuit], true)
    ∧ Peers.waitCycle cycleWaitQuit.keys = (100, true) := by
  have h := C6_cancel_during_wait [] cycleWaitQuit [cycleNever] [-1]
    (List.replicate 48 (-1)) (by simp) (by decide) (by decide)
  exact ⟨by simpa using h.1, h.2.trans (by decide)⟩
